import Mathlib

/-!
Shallow embedding of the `validate` Go package (Ramzec/go-valid).

The package has two source revisions; the later one (with the full
constraint engine: `min`, `max`, `minLen`, `maxLen`, `default`, `oneof`)
subsumes the earlier one, so the engine embedded here is the later
revision.  Go structures are modelled as follows:

* A destination struct is a list of `StructField` records, each carrying
  the Go field name, the optional `validate` tag, the field's reflect
  kind and its currently stored value.
* `map[string]*json.RawMessage` is an association list of string keys to
  `RawJson` values; `RawJson` abstracts an already-tokenized JSON value
  (an integral-or-rational number, a string, or a value that fails to
  decode into any kind handled here).
* Go `panic` is modelled as `Except.error` / the `VOutcome.fatal`
  constructor; returned `*ValidateError` values as `VOutcome.err`.
* Machine integers are `Int` / `Nat` with the explicit int64 / uint64
  range checks performed by `strconv`; the `int(reqLen)` conversion in
  the length checks is modelled with its 64-bit wraparound.
* Go floating point values are modelled as exact rationals; none of the
  properties below depends on rounding.
-/

namespace GoValid

def TAG_FIELD_NAME : String := "name"
def TAG_FIELD_REQUIRED : String := "required"
def TAG_FIELD_MAX : String := "max"
def TAG_FIELD_MIN : String := "min"
def TAG_FIELD_MAX_LEN : String := "maxLen"
def TAG_FIELD_MIN_LEN : String := "minLen"
def TAG_FIELD_DEFAULT : String := "default"
def TAG_FIELD_ONE_OF : String := "oneof"

/-- The `VALIDATE_ERR_CODE_*` constants. -/
inductive ErrCode where
  | UNKNOWN
  | MISSING_REQ_PARAM
  | UNPARSABLE
  | TOO_LONG
  | TOO_SHORT
  | TOO_BIG
  | TOO_SMALL
  | INVALID
deriving DecidableEq, Repr

/-- `ValidateError`; the `OriginalError` message text is not modelled,
only the code and the parameter name, which is what the claims are
about. -/
structure ValidateError where
  code : ErrCode
  paramName : String
deriving DecidableEq, Repr

/-- `FieldValidationParams`.  `Fields` is a Go map built by inserting
each non-`name`, non-`required` clause; since duplicate clause names
panic before insertion, the keys are unique and the map is modelled as
an association list in insertion order. -/
structure FieldValidationParams where
  name : String
  required : Bool
  fields : List (String × String)
deriving DecidableEq, Repr

/-- The reflect kinds that play a role in the engine.  `kOther` stands
for every remaining kind (bool, struct, slice, ...). -/
inductive FieldKind where
  | kInt
  | kInt8
  | kInt16
  | kInt32
  | kInt64
  | kUint
  | kUint8
  | kUint16
  | kUint32
  | kUint64
  | kFloat32
  | kFloat64
  | kString
  | kOther
deriving DecidableEq, Repr

/-- A value stored in a struct field.  Floats are modelled as exact
rationals. -/
inductive GoValue where
  | vInt (n : Int)
  | vUint (n : Nat)
  | vFloat (q : ℚ)
  | vStr (s : String)
  | vOther
deriving DecidableEq, Repr

/-- `fValue.Int()` as used under the signed-integer kinds. -/
def GoValue.intVal : GoValue → Int
  | .vInt n => n
  | _ => 0

/-- `fValue.Uint()` as used under the unsigned-integer kinds. -/
def GoValue.uintVal : GoValue → Nat
  | .vUint n => n
  | _ => 0

/-- `fValue.Float()` as used under the float kinds. -/
def GoValue.floatVal : GoValue → ℚ
  | .vFloat q => q
  | _ => 0

/-- `fValue.String()` as used under the string kind. -/
def GoValue.strVal : GoValue → String
  | .vStr s => s
  | _ => ""

/-- A raw input value (`*json.RawMessage`), abstracted to the shapes the
engine can meet: a JSON number, a JSON string, or anything that fails to
decode into the kinds handled here. -/
inductive RawJson where
  | jNum (q : ℚ)
  | jStr (s : String)
  | jBad
deriving DecidableEq, Repr

/-- One declared struct field: Go field name, optional `validate` tag,
reflect kind and stored value. -/
structure StructField where
  sfname : String
  tag : Option String
  kind : FieldKind
  value : GoValue
deriving DecidableEq, Repr

/-- First-match lookup in an association list (Go map read). -/
def lookupAssoc {α : Type} : List (String × α) → String → Option α
  | [], _ => none
  | (k2, v) :: rest, k => if k2 = k then some v else lookupAssoc rest k

/-- `strings.Split(s, ",")` (single-character separator, hence never an
empty result list). -/
def splitCommaAux : List Char → List Char → List String
  | [], cur => [String.mk cur.reverse]
  | c :: cs, cur =>
    if c = ',' then String.mk cur.reverse :: splitCommaAux cs []
    else splitCommaAux cs (c :: cur)

def goSplitComma (s : String) : List String := splitCommaAux s.data []

/-- `strings.SplitN(v, "=", 2)`: the clause name and, when a `=` is
present, the remainder after the first `=`. -/
def splitEqAux : List Char → List Char → String × Option String
  | [], acc => (String.mk acc.reverse, none)
  | c :: cs, acc =>
    if c = '=' then (String.mk acc.reverse, some (String.mk cs))
    else splitEqAux cs (c :: acc)

def splitN2 (v : String) : String × Option String := splitEqAux v.data []

/-- `splitRes[0]` of a clause. -/
def clauseName (v : String) : String := (splitN2 v).1

/-- `tagFieldValue` of a clause: the part after the first `=`, empty
when no `=` is present. -/
def clauseValue (v : String) : String := ((splitN2 v).2).getD ""

/-- Decimal digit string to `Nat`; `none` on an empty string or a
non-digit character. -/
def decDigits (cs : List Char) : Option Nat :=
  match cs with
  | [] => none
  | _ =>
    cs.foldl
      (fun acc c =>
        acc.bind fun n => if c.isDigit then some (10 * n + (c.toNat - 48)) else none)
      (some 0)

/-- `strconv.ParseUint(s, 10, 64)`: decimal digits, no sign, value below
2^64. -/
def goParseUint (s : String) : Option Nat :=
  (decDigits s.data).bind fun n => if n < 2 ^ 64 then some n else none

/-- `strconv.ParseInt(s, 10, 64)`: optional sign, decimal digits, value
within the int64 range. -/
def goParseInt (s : String) : Option Int :=
  match s.data with
  | '+' :: rest =>
    (decDigits rest).bind fun n => if n ≤ 2 ^ 63 - 1 then some (n : Int) else none
  | '-' :: rest =>
    (decDigits rest).bind fun n => if n ≤ 2 ^ 63 then some (-(n : Int)) else none
  | cs => (decDigits cs).bind fun n => if n ≤ 2 ^ 63 - 1 then some (n : Int) else none

/-- `strconv.ParseFloat`, modelled on the plain decimal forms
`[sign] digits [. digits]` / `[sign] . digits`, exactly (no rounding;
exponent, hex and inf/nan forms are outside the model, no claim
exercises them). -/
def goParseFloat (s : String) : Option ℚ :=
  let core : List Char → Option ℚ := fun cs =>
    match cs.splitOnP (· = '.') with
    | [intPart] => (decDigits intPart).map fun n => (n : ℚ)
    | [intPart, fracPart] =>
      if intPart = [] ∧ fracPart = [] then none
      else
        let ip : Option Nat := if intPart = [] then some 0 else decDigits intPart
        let fp : Option Nat := if fracPart = [] then some 0 else decDigits fracPart
        ip.bind fun i => fp.map fun f => (i : ℚ) + (f : ℚ) / ((10 : ℚ) ^ fracPart.length)
    | _ => none
  match s.data with
  | '+' :: rest => core rest
  | '-' :: rest => (core rest).map Neg.neg
  | cs => core cs

/-- `int(u)` for a `uint64` value `u`: 64-bit two's-complement
wraparound. -/
def toInt64 (u : Nat) : Int :=
  if u < 2 ^ 63 then (u : Int) else (u : Int) - 2 ^ 64

/-- Go `len(s)` on a string: the UTF-8 byte count. -/
def goStrLen (s : String) : Nat :=
  s.data.foldl (fun n c => n + c.utf8Size) 0

/-- `decodeTagFields`, clause by clause.  `seen` is the duplicate-check
set; a Go `panic` is an `Except.error` carrying the message. -/
def decodeTagFieldsAux :
    List String → List String → FieldValidationParams →
      Except String FieldValidationParams
  | [], _, vParams => .ok vParams
  | v :: rest, seen, vParams =>
    if clauseName v = "" then .error "Empty tag field"
    else if seen.contains (clauseName v) then
      .error ("Tag field " ++ clauseName v ++ " aleady defined")
    else if clauseName v = TAG_FIELD_NAME then
      if clauseValue v = "" then .error "Tag field name is empty"
      else
        decodeTagFieldsAux rest (clauseName v :: seen)
          { vParams with name := clauseValue v }
    else if clauseName v = TAG_FIELD_REQUIRED then
      if clauseValue v = "" ∨ clauseValue v = "true" then
        decodeTagFieldsAux rest (clauseName v :: seen) { vParams with required := true }
      else if clauseValue v = "false" then
        decodeTagFieldsAux rest (clauseName v :: seen) { vParams with required := false }
      else .error "Tag field required has unknown value"
    else
      decodeTagFieldsAux rest (clauseName v :: seen)
        { vParams with fields := vParams.fields ++ [(clauseName v, clauseValue v)] }

def decodeTagFields (tagFieldsRaw : List String) : Except String FieldValidationParams :=
  decodeTagFieldsAux tagFieldsRaw [] ⟨"", false, []⟩

def isErr {ε α : Type} : Except ε α → Bool
  | .error _ => true
  | .ok _ => false

/-- `json.Unmarshal(*val, fValue.Addr().Interface())`: decoding an
already-tokenized JSON value into a field of the given kind.  Integer
kinds accept an integral number within the kind's range; float kinds
accept any number; the string kind accepts a JSON string; everything
else fails (`Unparsable`). -/
def jsonDecode (raw : RawJson) (kind : FieldKind) : Option GoValue :=
  match raw, kind with
  | .jNum q, .kInt =>
    if q.den = 1 ∧ -(2 ^ 63) ≤ q.num ∧ q.num ≤ 2 ^ 63 - 1 then some (.vInt q.num) else none
  | .jNum q, .kInt8 =>
    if q.den = 1 ∧ -(2 ^ 7) ≤ q.num ∧ q.num ≤ 2 ^ 7 - 1 then some (.vInt q.num) else none
  | .jNum q, .kInt16 =>
    if q.den = 1 ∧ -(2 ^ 15) ≤ q.num ∧ q.num ≤ 2 ^ 15 - 1 then some (.vInt q.num) else none
  | .jNum q, .kInt32 =>
    if q.den = 1 ∧ -(2 ^ 31) ≤ q.num ∧ q.num ≤ 2 ^ 31 - 1 then some (.vInt q.num) else none
  | .jNum q, .kInt64 =>
    if q.den = 1 ∧ -(2 ^ 63) ≤ q.num ∧ q.num ≤ 2 ^ 63 - 1 then some (.vInt q.num) else none
  | .jNum q, .kUint =>
    if q.den = 1 ∧ 0 ≤ q.num ∧ q.num ≤ 2 ^ 64 - 1 then some (.vUint q.num.toNat) else none
  | .jNum q, .kUint8 =>
    if q.den = 1 ∧ 0 ≤ q.num ∧ q.num ≤ 2 ^ 8 - 1 then some (.vUint q.num.toNat) else none
  | .jNum q, .kUint16 =>
    if q.den = 1 ∧ 0 ≤ q.num ∧ q.num ≤ 2 ^ 16 - 1 then some (.vUint q.num.toNat) else none
  | .jNum q, .kUint32 =>
    if q.den = 1 ∧ 0 ≤ q.num ∧ q.num ≤ 2 ^ 32 - 1 then some (.vUint q.num.toNat) else none
  | .jNum q, .kUint64 =>
    if q.den = 1 ∧ 0 ≤ q.num ∧ q.num ≤ 2 ^ 64 - 1 then some (.vUint q.num.toNat) else none
  | .jNum q, .kFloat32 => some (.vFloat q)
  | .jNum q, .kFloat64 => some (.vFloat q)
  | .jStr s, .kString => some (.vStr s)
  | _, _ => none

/-- `setDefaultValue`: coerce the raw default literal into the field.
Note the source switches only on `reflect.Uint`, `reflect.Int`,
`reflect.Float32`, `reflect.Float64` and `reflect.String`; every other
kind (including the sized integer kinds) panics. -/
def setDefaultValue (kind : FieldKind) (rawValue : String) : Except String GoValue :=
  match kind with
  | .kUint =>
    match goParseUint rawValue with
    | none => .error ("Unable to parse default (" ++ rawValue ++ ") as an unsigned integer")
    | some n => .ok (.vUint n)
  | .kInt =>
    match goParseInt rawValue with
    | none => .error ("Unable to parse default (" ++ rawValue ++ ") as a signed integer")
    | some n => .ok (.vInt n)
  | .kFloat32 =>
    match goParseFloat rawValue with
    | none => .error ("Unable to parse default (" ++ rawValue ++ ") as a float32")
    | some q => .ok (.vFloat q)
  | .kFloat64 =>
    match goParseFloat rawValue with
    | none => .error ("Unable to parse default (" ++ rawValue ++ ") as a float64")
    | some q => .ok (.vFloat q)
  | .kString => .ok (.vStr rawValue)
  | _ => .error "Unsupported kind of value"

/-- The `valErr.Code` the source computes for a signed-integer `min` /
`max` check (the two `if` statements under the signed-integer kinds):
`TOO_SMALL` / `TOO_BIG` on violation, `UNKNOWN` otherwise.  The source
then formats a message for this code but never returns the error. -/
def intMinMaxCode (tagName : String) (fv bound : Int) : ErrCode :=
  if tagName = TAG_FIELD_MIN ∧ fv < bound then .TOO_SMALL
  else if tagName = TAG_FIELD_MAX ∧ fv > bound then .TOO_BIG
  else .UNKNOWN

/-- Same, for the unsigned-integer kinds. -/
def uintMinMaxCode (tagName : String) (fv bound : Nat) : ErrCode :=
  if tagName = TAG_FIELD_MIN ∧ fv < bound then .TOO_SMALL
  else if tagName = TAG_FIELD_MAX ∧ fv > bound then .TOO_BIG
  else .UNKNOWN

/-- Same, for the float kinds. -/
def floatMinMaxCode (tagName : String) (fv bound : ℚ) : ErrCode :=
  if tagName = TAG_FIELD_MIN ∧ fv < bound then .TOO_SMALL
  else if tagName = TAG_FIELD_MAX ∧ fv > bound then .TOO_BIG
  else .UNKNOWN

/-- One iteration of the constraint loop body (the `switch tagName`
statement): `Except.error` is a panic, `.ok (some e)` a returned
`*ValidateError`, `.ok none` continue-to-next-constraint.

Faithful to the source:
* under `min` / `max` the signed kinds listed are exactly `Int`, `Int8`,
  `Int32`, `Int64` (no `Int16`) and the unsigned kinds exactly `Uint`,
  `Uint8`, `Uint32`, `Uint64` (no `Uint16`); the computed violation code
  is bound as `_code` and then dropped, because the source builds
  `valErr` and its message but never returns it;
* under `minLen` / `maxLen` the bound is parsed as `uint64` and
  converted with `int(reqLen)` (64-bit wraparound), and the string
  length is Go's `len` (UTF-8 byte count);
* the `oneof` case body is empty in the source;
* `default` is a no-op here (already consumed);
* any other clause name panics. -/
def evalConstraint (sfname pname : String) (kind : FieldKind) (v : GoValue)
    (tagName tagRawVal : String) : Except String (Option ValidateError) :=
  if tagName = TAG_FIELD_MIN ∨ tagName = TAG_FIELD_MAX then
    match kind with
    | .kInt | .kInt8 | .kInt32 | .kInt64 =>
      match goParseInt tagRawVal with
      | none => .error ("Unable to parse " ++ tagName ++ " tag as a signed integer")
      | some bound =>
        let _code := intMinMaxCode tagName v.intVal bound
        .ok none
    | .kUint | .kUint8 | .kUint32 | .kUint64 =>
      match goParseUint tagRawVal with
      | none => .error ("Unable to parse " ++ tagName ++ " tag as a unsigned integer")
      | some bound =>
        let _code := uintMinMaxCode tagName v.uintVal bound
        .ok none
    | .kFloat32 | .kFloat64 =>
      match goParseFloat tagRawVal with
      | none => .error ("Unable to parse default (" ++ tagRawVal ++ ") as a float")
      | some bound =>
        let _code := floatMinMaxCode tagName v.floatVal bound
        .ok none
    | _ =>
      .error ("Tag " ++ tagName ++ " cannot be applied to field " ++ sfname ++
        ". The field is not an integer or float")
  else if tagName = TAG_FIELD_MIN_LEN ∨ tagName = TAG_FIELD_MAX_LEN then
    if kind ≠ .kString then
      .error ("Tag " ++ tagName ++ " cannot be applied to field " ++ sfname ++
        ". The field is not a string")
    else
      match goParseUint tagRawVal with
      | none => .error ("Unable to parse " ++ tagName ++ " tag as an unsigned integer")
      | some reqLen =>
        if tagName = TAG_FIELD_MAX_LEN ∧ (goStrLen v.strVal : Int) > toInt64 reqLen then
          .ok (some ⟨.TOO_LONG, pname⟩)
        else if tagName = TAG_FIELD_MIN_LEN ∧ (goStrLen v.strVal : Int) < toInt64 reqLen then
          .ok (some ⟨.TOO_SHORT, pname⟩)
        else .ok none
  else if tagName = TAG_FIELD_ONE_OF then
    .ok none
  else if tagName = TAG_FIELD_DEFAULT then
    .ok none
  else .error ("Unknown tag field: " ++ tagName)

/-- Outcome of processing one declared field: a panic, a returned
`*ValidateError` (carrying the value the field holds at that point, as
the source mutates in place before erroring), or success with the
field's (possibly updated) value. -/
inductive FieldResult where
  | fPanic (msg : String)
  | fErr (e : ValidateError) (newVal : GoValue)
  | fOk (newVal : GoValue)
deriving DecidableEq, Repr

/-- The `for tagName, tagRawVal := range vParams.Fields` loop, iterated
in the association list's insertion order (the Go map's iteration order
is unspecified; the claims below do not depend on it, as noted at each
use). -/
def runConstraints (sfname pname : String) (kind : FieldKind) (v : GoValue) :
    List (String × String) → FieldResult
  | [] => .fOk v
  | (tn, tv) :: rest =>
    match evalConstraint sfname pname kind v tn tv with
    | .error m => .fPanic m
    | .ok (some e) => .fErr e v
    | .ok none => runConstraints sfname pname kind v rest

/-- The body of `Validate`'s per-field loop for one field: tag lookup,
tag decoding, presence check, decode-or-default, then the constraint
loop. -/
def processField (inputData : List (String × RawJson)) (f : StructField) : FieldResult :=
  match f.tag with
  | none => .fOk f.value
  | some tagValue =>
    let tagFieldsRaw := goSplitComma tagValue
    if tagFieldsRaw = [] then .fPanic ("Field " ++ f.sfname ++ ": empty tag")
    else
      match decodeTagFields tagFieldsRaw with
      | .error m => .fPanic m
      | .ok vParams =>
        match lookupAssoc inputData vParams.name with
        | none =>
          if vParams.required then
            .fErr ⟨.MISSING_REQ_PARAM, vParams.name⟩ f.value
          else
            match lookupAssoc vParams.fields TAG_FIELD_DEFAULT with
            | some dv =>
              match setDefaultValue f.kind dv with
              | .error m => .fPanic m
              | .ok v => runConstraints f.sfname vParams.name f.kind v vParams.fields
            | none => .fOk f.value
        | some raw =>
          match jsonDecode raw f.kind with
          | none => .fErr ⟨.UNPARSABLE, vParams.name⟩ f.value
          | some v => runConstraints f.sfname vParams.name f.kind v vParams.fields

/-- Result of a `Validate` call: `nil` (with the mutated struct), a
returned `*ValidateError` (with the struct as mutated up to that
point), or a panic. -/
inductive VOutcome where
  | ok (out : List StructField)
  | err (e : ValidateError) (out : List StructField)
  | fatal (msg : String)
deriving DecidableEq, Repr

/-- The field loop of `Validate`, over the declared fields in
declaration order. -/
def validateFields (inputData : List (String × RawJson)) :
    List StructField → VOutcome
  | [] => .ok []
  | f :: rest =>
    match processField inputData f with
    | .fPanic m => .fatal m
    | .fErr e v => .err e ({ f with value := v } :: rest)
    | .fOk v =>
      match validateFields inputData rest with
      | .ok out => .ok ({ f with value := v } :: out)
      | .err e out => .err e ({ f with value := v } :: out)
      | .fatal m => .fatal m

/-- `Validate(inputData, outputStruct)` for a non-nil pointer to a
struct (the pointer-shape preconditions, whose violation panics before
any field is examined, are outside the model). -/
def Validate (inputData : List (String × RawJson)) (outputStruct : List StructField) :
    VOutcome :=
  validateFields inputData outputStruct

/-- Spec-side characterization of a malformed clause (used to settle the
parse-failure claim): an empty name component, a `name` clause with an
empty value, or a `required` clause whose value is neither empty nor
`true` nor `false`. -/
def BadClause (v : String) : Prop :=
  clauseName v = "" ∨
  (clauseName v = TAG_FIELD_NAME ∧ clauseValue v = "") ∨
  (clauseName v = TAG_FIELD_REQUIRED ∧ clauseValue v ≠ "" ∧ clauseValue v ≠ "true" ∧
    clauseValue v ≠ "false")

instance : DecidablePred BadClause := fun v => by
  unfold BadClause; infer_instance

/-- The kinds the source's `min` / `max` switch dispatches to a numeric
comparison: exactly `Int`, `Int8`, `Int32`, `Int64`, `Uint`, `Uint8`,
`Uint32`, `Uint64`, `Float32`, `Float64` (`Int16` and `Uint16` fall
through to the fatal branch). -/
def numericKind : FieldKind → Bool
  | .kInt | .kInt8 | .kInt32 | .kInt64 => true
  | .kUint | .kUint8 | .kUint32 | .kUint64 => true
  | .kFloat32 | .kFloat64 => true
  | _ => false

/-- The raw `min` / `max` bound parses in the numeric family the source
uses for the given kind. -/
def boundParses (kind : FieldKind) (tv : String) : Bool :=
  match kind with
  | .kInt | .kInt8 | .kInt32 | .kInt64 => (goParseInt tv).isSome
  | .kUint | .kUint8 | .kUint32 | .kUint64 => (goParseUint tv).isSome
  | .kFloat32 | .kFloat64 => (goParseFloat tv).isSome
  | _ => false

theorem splitCommaAux_ne_nil (cs : List Char) : ∀ cur, splitCommaAux cs cur ≠ [] := by
  induction cs with
  | nil => intro cur; simp [splitCommaAux]
  | cons c cs ih =>
    intro cur
    simp only [splitCommaAux]
    split
    · simp
    · exact ih _

theorem goSplitComma_ne_nil (s : String) : goSplitComma s ≠ [] :=
  splitCommaAux_ne_nil s.data []

theorem aux_step_iff (v : String) (rest : List String) (seen : List String)
    (hnb : ¬ BadClause v) (hns : clauseName v ∉ seen) :
    ((∃ w ∈ rest, BadClause w) ∨ ¬ (rest.map clauseName).Nodup ∨
      ∃ w ∈ rest, clauseName w ∈ (clauseName v :: seen)) ↔
    ((∃ w ∈ v :: rest, BadClause w) ∨ ¬ ((v :: rest).map clauseName).Nodup ∨
      ∃ w ∈ v :: rest, clauseName w ∈ seen) := by
  simp only [List.mem_cons, List.map_cons, List.nodup_cons, List.mem_map]
  constructor
  · rintro (⟨w, hw, hb⟩ | hnd | ⟨w, hw, hm | hm⟩)
    · exact Or.inl ⟨w, Or.inr hw, hb⟩
    · exact Or.inr (Or.inl (fun ⟨_, hnd2⟩ => hnd hnd2))
    · exact Or.inr (Or.inl (fun h => h.1 ⟨w, hw, hm⟩))
    · exact Or.inr (Or.inr ⟨w, Or.inr hw, hm⟩)
  · rintro (⟨w, rfl | hw, hb⟩ | hnd | ⟨w, rfl | hw, hm⟩)
    · exact absurd hb hnb
    · exact Or.inl ⟨w, hw, hb⟩
    · by_cases hmem : clauseName v ∈ rest.map clauseName
      · rcases List.mem_map.mp hmem with ⟨w, hw, hm⟩
        exact Or.inr (Or.inr ⟨w, hw, Or.inl hm⟩)
      · exact Or.inr (Or.inl
          (fun hnd2 => hnd ⟨fun hx => hmem (List.mem_map.mpr hx), hnd2⟩))
    · exact absurd hm hns
    · exact Or.inr (Or.inr ⟨w, hw, Or.inr hm⟩)

theorem decodeTagFieldsAux_isErr (l : List String) :
    ∀ (seen : List String) (acc : FieldValidationParams),
      isErr (decodeTagFieldsAux l seen acc) = true ↔
        ((∃ v ∈ l, BadClause v) ∨ ¬ (l.map clauseName).Nodup ∨
          ∃ v ∈ l, clauseName v ∈ seen) := by
  induction l with
  | nil => intro seen acc; simp [decodeTagFieldsAux, isErr]
  | cons v rest ih =>
    intro seen acc
    simp only [decodeTagFieldsAux]
    by_cases h1 : clauseName v = ""
    · rw [if_pos h1]
      simp only [isErr, true_iff]
      exact Or.inl ⟨v, List.mem_cons_self v rest, Or.inl h1⟩
    · rw [if_neg h1]
      by_cases h2 : clauseName v ∈ seen
      · rw [if_pos (by simpa using h2)]
        simp only [isErr, true_iff]
        exact Or.inr (Or.inr ⟨v, List.mem_cons_self v rest, h2⟩)
      · rw [if_neg (by simpa using h2)]
        by_cases h3 : clauseName v = TAG_FIELD_NAME
        · rw [if_pos h3]
          by_cases h4 : clauseValue v = ""
          · rw [if_pos h4]
            simp only [isErr, true_iff]
            exact Or.inl ⟨v, List.mem_cons_self v rest, Or.inr (Or.inl ⟨h3, h4⟩)⟩
          · rw [if_neg h4, ih]
            refine aux_step_iff v rest seen (fun hb => ?_) h2
            rcases hb with h | ⟨_, h⟩ | ⟨h, _⟩
            · exact h1 h
            · exact h4 h
            · rw [h3] at h; exact absurd h (by decide)
        · rw [if_neg h3]
          by_cases h5 : clauseName v = TAG_FIELD_REQUIRED
          · rw [if_pos h5]
            by_cases h6 : clauseValue v = "" ∨ clauseValue v = "true"
            · rw [if_pos h6, ih]
              refine aux_step_iff v rest seen (fun hb => ?_) h2
              rcases hb with h | ⟨h, _⟩ | ⟨_, hne, hnt, _⟩
              · exact h1 h
              · exact h3 h
              · rcases h6 with h | h
                · exact hne h
                · exact hnt h
            · rw [if_neg h6]
              by_cases h7 : clauseValue v = "false"
              · rw [if_pos h7, ih]
                refine aux_step_iff v rest seen (fun hb => ?_) h2
                rcases hb with h | ⟨h, _⟩ | ⟨_, _, _, hnf⟩
                · exact h1 h
                · exact h3 h
                · exact hnf h7
              · rw [if_neg h7]
                simp only [isErr, true_iff]
                push_neg at h6
                exact Or.inl ⟨v, List.mem_cons_self v rest,
                  Or.inr (Or.inr ⟨h5, h6.1, h6.2, h7⟩)⟩
          · rw [if_neg h5, ih]
            refine aux_step_iff v rest seen (fun hb => ?_) h2
            rcases hb with h | ⟨h, _⟩ | ⟨h, _⟩
            · exact h1 h
            · exact h3 h
            · exact h5 h

theorem exists_name_clause_cons (v : String) (rest : List String)
    (h : clauseName v ≠ TAG_FIELD_NAME) :
    (∃ w ∈ v :: rest, clauseName w = TAG_FIELD_NAME) ↔
      (∃ w ∈ rest, clauseName w = TAG_FIELD_NAME) := by
  simp only [List.mem_cons]
  constructor
  · rintro ⟨w, rfl | hw, hn⟩
    · exact absurd hn h
    · exact ⟨w, hw, hn⟩
  · rintro ⟨w, hw, hn⟩
    exact ⟨w, Or.inr hw, hn⟩

theorem decodeTagFieldsAux_ok_name (l : List String) :
    ∀ (seen : List String) (acc out : FieldValidationParams),
      decodeTagFieldsAux l seen acc = .ok out →
      (out.name = "" ↔
        (acc.name = "" ∧ ¬ ∃ v ∈ l, clauseName v = TAG_FIELD_NAME)) := by
  induction l with
  | nil =>
    intro seen acc out h
    simp only [decodeTagFieldsAux] at h
    injection h with h
    subst h
    simp
  | cons v rest ih =>
    intro seen acc out h
    simp only [decodeTagFieldsAux] at h
    split_ifs at h with h1 h2 h3 h4 h5 h6 h7
    · have hv := ih _ _ _ h
      constructor
      · intro hz
        exact absurd ((hv.mp hz).1) h4
      · rintro ⟨_, hno⟩
        exact absurd ⟨v, List.mem_cons_self v rest, h3⟩ hno
    · rw [ih _ _ _ h]
      simp only [exists_name_clause_cons v rest (fun hn => h3 hn)]
    · rw [ih _ _ _ h]
      simp only [exists_name_clause_cons v rest (fun hn => h3 hn)]
    · rw [ih _ _ _ h]
      simp only [exists_name_clause_cons v rest (fun hn => h3 hn)]

/-- C1 (code bug): the spec says a numeric value strictly above `max`
yields `TooBig` (Scenario A: tag `name=age,required,min=0,max=150`,
input age 200).  The source computes the `TOO_BIG` code and formats its
message but never returns the error, so `Validate` returns success with
the out-of-range value stored; the second conjunct exhibits the
violation code the source computes at that input and then drops. -/
theorem c1_scenarioA_minmax_violation_dropped :
    Validate [("age", .jNum 200)]
        [⟨"Age", some "name=age,required,min=0,max=150", .kInt, .vInt 0⟩] =
      .ok [⟨"Age", some "name=age,required,min=0,max=150", .kInt, .vInt 200⟩] ∧
    intMinMaxCode TAG_FIELD_MAX 200 150 = .TOO_BIG := by
  exact ⟨by decide, by decide⟩

/-- C2 (code bug): the spec says a `oneof` mismatch yields
`InvalidEnum` (Scenario C: tag `name=color,oneof=red|green|blue`, input
color purple).  The `oneof` case body in the source is empty (the
`VALIDATE_ERR_CODE_INVALID` constant is declared but never used), so the
constraint never rejects anything and `Validate` returns success. -/
theorem c2_scenarioC_oneof_never_rejects :
    evalConstraint "Color" "color" .kString (.vStr "purple") TAG_FIELD_ONE_OF
        "red|green|blue" = .ok none ∧
    Validate [("color", .jStr "purple")]
        [⟨"Color", some "name=color,oneof=red|green|blue", .kString, .vStr ""⟩] =
      .ok [⟨"Color", some "name=color,oneof=red|green|blue", .kString,
            .vStr "purple"⟩] := by
  exact ⟨rfl, by decide⟩

/-- C3 counterexample: a struct whose tagged field has the unknown
clause name `bogus` does NOT fail fatally on every call — when the key
is absent, the field not required and no default present, the constraint
loop is skipped and `Validate` returns success, silently ignoring the
unknown name. -/
theorem c3_counterexample :
    Validate [] [⟨"X", some "name=x,bogus=1", .kInt, .vInt 7⟩] =
      .ok [⟨"X", some "name=x,bogus=1", .kInt, .vInt 7⟩] := by decide

/-- C3 (amended): a clause name outside the recognized set is a fatal
panic whenever that clause is evaluated (for every kind and value), but
the constraint loop only runs when the field's key is present (and
decodes) or the field has a default; when the key is absent and the
field is neither required nor defaulted the unknown name is silently
skipped, so the failure is not unconditional. -/
theorem c3_unknown_clause_fatal_when_evaluated :
    (∀ (sfname pname : String) (kind : FieldKind) (v : GoValue) (tn tv : String),
        tn ≠ TAG_FIELD_MIN → tn ≠ TAG_FIELD_MAX → tn ≠ TAG_FIELD_MIN_LEN →
        tn ≠ TAG_FIELD_MAX_LEN → tn ≠ TAG_FIELD_ONE_OF → tn ≠ TAG_FIELD_DEFAULT →
        evalConstraint sfname pname kind v tn tv =
          .error ("Unknown tag field: " ++ tn)) ∧
    Validate [("x", .jNum 5)] [⟨"X", some "name=x,bogus=1", .kInt, .vInt 7⟩] =
      .fatal "Unknown tag field: bogus" := by
  constructor
  · intro sfname pname kind v tn tv m1 m2 m3 m4 m5 m6
    simp [evalConstraint, m1, m2, m3, m4, m5, m6]
  · decide

/-- C3 witness: the amended theorem applied at the unknown clause name
`bogus`. -/
theorem c3_witness :
    evalConstraint "X" "x" .kInt (.vInt 7) "bogus" "1" =
      .error ("Unknown tag field: " ++ "bogus") :=
  c3_unknown_clause_fatal_when_evaluated.1 "X" "x" .kInt (.vInt 7) "bogus" "1"
    (by decide) (by decide) (by decide) (by decide) (by decide) (by decide)

/-- C4 counterexample: with `maxLen=18446744073709551615` (2^64-1) the
`uint64` bound wraps to `-1` under the source's `int(reqLen)`
conversion, so the empty string — whose length 0 does not exceed the
bound — is reported `TooLong`, contradicting the claim for every text
field with a `maxLen` constraint. -/
theorem c4_counterexample :
    goStrLen "" = 0 ∧
    goParseUint "18446744073709551615" = some 18446744073709551615 ∧
    Validate [("bio", .jStr "")]
        [⟨"Bio", some "name=bio,maxLen=18446744073709551615", .kString, .vStr ""⟩] =
      .err ⟨.TOO_LONG, "bio"⟩
        [⟨"Bio", some "name=bio,maxLen=18446744073709551615", .kString,
          .vStr ""⟩] := by
  exact ⟨rfl, by decide, by decide⟩

/-- C4 (amended): for length bounds whose parsed `uint64` value is
below 2^63 (so the `int` conversion is value-preserving), a string
strictly longer than `maxLen` yields `TooLong`, strictly shorter than
`minLen` yields `TooShort`, boundary lengths are accepted, and a
violated length constraint is returned immediately by the constraint
loop. -/
theorem c4_length_bounds (sfname pname s tv : String) (n : Nat)
    (hp : goParseUint tv = some n) (hlt : n < 2 ^ 63) :
    (evalConstraint sfname pname .kString (.vStr s) TAG_FIELD_MAX_LEN tv =
        if (goStrLen s : Int) > (n : Int) then .ok (some ⟨.TOO_LONG, pname⟩)
        else .ok none) ∧
    (evalConstraint sfname pname .kString (.vStr s) TAG_FIELD_MIN_LEN tv =
        if (goStrLen s : Int) < (n : Int) then .ok (some ⟨.TOO_SHORT, pname⟩)
        else .ok none) ∧
    (∀ (kind : FieldKind) (v : GoValue) (tn tv2 : String) (e : ValidateError)
        (rest : List (String × String)),
      evalConstraint sfname pname kind v tn tv2 = .ok (some e) →
      runConstraints sfname pname kind v ((tn, tv2) :: rest) = .fErr e v) := by
  have hint : toInt64 n = (n : Int) := by
    unfold toInt64
    rw [if_pos hlt]
  refine ⟨?_, ?_, ?_⟩
  · simp only [evalConstraint, GoValue.strVal]
    rw [if_neg (by decide), if_pos (by decide), if_neg (by decide), hp]
    simp only [hint]
    by_cases hgt : (goStrLen s : Int) > (n : Int)
    · rw [if_pos ⟨trivial, hgt⟩, if_pos hgt]
    · rw [if_neg (fun h => hgt h.2), if_neg (fun h => absurd h.1 (by decide)),
        if_neg hgt]
  · simp only [evalConstraint, GoValue.strVal]
    rw [if_neg (by decide), if_pos (by decide), if_neg (by decide), hp]
    simp only [hint]
    by_cases hlt2 : (goStrLen s : Int) < (n : Int)
    · rw [if_neg (fun h => absurd h.1 (by decide)), if_pos ⟨trivial, hlt2⟩, if_pos hlt2]
    · rw [if_neg (fun h => absurd h.1 (by decide)), if_neg (fun h => hlt2 h.2),
        if_neg hlt2]
  · intro kind v tn tv2 e rest h
    simp [runConstraints, h]

/-- C5 (confirmed): a field whose tag parses to a required spec and
whose external name is absent from the input yields `MissingRequired`
carrying that name, whatever other clauses (including `default`) the
tag contains, and the struct — including every later field — is
returned untouched (no later field is examined). -/
theorem c5_required_missing (f : StructField) (rest : List StructField)
    (inputData : List (String × RawJson)) (t : String)
    (vParams : FieldValidationParams)
    (htag : f.tag = some t)
    (hdec : decodeTagFields (goSplitComma t) = .ok vParams)
    (hreq : vParams.required = true)
    (habs : lookupAssoc inputData vParams.name = none) :
    Validate inputData (f :: rest) =
      .err ⟨.MISSING_REQ_PARAM, vParams.name⟩ (f :: rest) := by
  have hne := goSplitComma_ne_nil t
  simp [Validate, validateFields, processField, htag, hdec, hreq, habs, hne]
  rw [← htag]

/-- C5 witness: Scenario E, tag `name=count,required` against empty
input. -/
theorem c5_witness :
    Validate [] [⟨"Count", some "name=count,required", .kInt, .vInt 0⟩] =
      .err ⟨.MISSING_REQ_PARAM, "count"⟩
        [⟨"Count", some "name=count,required", .kInt, .vInt 0⟩] :=
  c5_required_missing ⟨"Count", some "name=count,required", .kInt, .vInt 0⟩ [] []
    "name=count,required" ⟨"count", true, []⟩ rfl rfl rfl rfl

/-- C6 (confirmed): a non-required field of kind int, uint, float32,
float64 or string with a `default` clause and no input key is assigned
exactly the default's raw string coerced by `setDefaultValue` into the
field's kind, is not reported missing, and — absent other violations —
the call succeeds. -/
theorem c6_default_applied (f : StructField) (inputData : List (String × RawJson))
    (t dv : String) (vParams : FieldValidationParams) (v : GoValue)
    (_hkind : f.kind = .kInt ∨ f.kind = .kUint ∨ f.kind = .kFloat32 ∨
      f.kind = .kFloat64 ∨ f.kind = .kString)
    (htag : f.tag = some t)
    (hdec : decodeTagFields (goSplitComma t) = .ok vParams)
    (hreq : vParams.required = false)
    (habs : lookupAssoc inputData vParams.name = none)
    (hdef : lookupAssoc vParams.fields TAG_FIELD_DEFAULT = some dv)
    (hset : setDefaultValue f.kind dv = .ok v)
    (hrun : runConstraints f.sfname vParams.name f.kind v vParams.fields = .fOk v) :
    processField inputData f = .fOk v ∧
    Validate inputData [f] = .ok [{ f with value := v }] := by
  have hne := goSplitComma_ne_nil t
  have hpf : processField inputData f = .fOk v := by
    simp [processField, htag, hdec, hreq, habs, hdef, hset, hrun, hne]
  exact ⟨hpf, by simp [Validate, validateFields, hpf]⟩

/-- C6 witness: Scenario B, tag `name=age,default=18` against empty
input sets the field to 18 and succeeds. -/
theorem c6_witness :
    setDefaultValue .kInt "18" = .ok (.vInt 18) ∧
    Validate [] [⟨"Age", some "name=age,default=18", .kInt, .vInt 0⟩] =
      .ok [⟨"Age", some "name=age,default=18", .kInt, .vInt 18⟩] := by
  refine ⟨rfl, ?_⟩
  exact (c6_default_applied ⟨"Age", some "name=age,default=18", .kInt, .vInt 0⟩ []
    "name=age,default=18" "18" ⟨"age", false, [("default", "18")]⟩ (.vInt 18)
    (Or.inl rfl) rfl rfl rfl rfl rfl rfl rfl).2

/-- C10 (confirmed): a field with no `validate` tag, or a non-required
field with no `default` whose external name is absent from the input,
passes through with its stored value exactly unchanged, and the loop
proceeds to the next declared field. -/
theorem c10_absent_field_untouched (f : StructField)
    (inputData : List (String × RawJson)) :
    (f.tag = none → processField inputData f = .fOk f.value) ∧
    (∀ (t : String) (vParams : FieldValidationParams),
      f.tag = some t →
      decodeTagFields (goSplitComma t) = .ok vParams →
      vParams.required = false →
      lookupAssoc vParams.fields TAG_FIELD_DEFAULT = none →
      lookupAssoc inputData vParams.name = none →
      processField inputData f = .fOk f.value) ∧
    (∀ (rest : List StructField),
      processField inputData f = .fOk f.value →
      validateFields inputData (f :: rest) =
        match validateFields inputData rest with
        | .ok out => .ok (f :: out)
        | .err e out => .err e (f :: out)
        | .fatal m => .fatal m) := by
  refine ⟨?_, ?_, ?_⟩
  · intro htag
    simp [processField, htag]
  · intro t vParams htag hdec hreq hdef habs
    have hne := goSplitComma_ne_nil t
    simp [processField, htag, hdec, hreq, hdef, habs, hne]
  · intro rest hpf
    simp only [validateFields, hpf]

/-- C10 witness: an absent non-required field without default, and a
tagless field, both left untouched in a successful call. -/
theorem c10_witness :
    processField [("other", .jNum 1)]
        ⟨"X", some "name=x,min=0", .kInt, .vInt 7⟩ = .fOk (.vInt 7) ∧
    Validate [("other", .jNum 1)]
        [⟨"X", some "name=x,min=0", .kInt, .vInt 7⟩,
         ⟨"Y", none, .kString, .vStr "y"⟩] =
      .ok [⟨"X", some "name=x,min=0", .kInt, .vInt 7⟩,
           ⟨"Y", none, .kString, .vStr "y"⟩] := by
  constructor
  · exact (c10_absent_field_untouched ⟨"X", some "name=x,min=0", .kInt, .vInt 7⟩
      [("other", .jNum 1)]).2.1 "name=x,min=0" ⟨"x", false, [("min", "0")]⟩
      rfl rfl rfl rfl rfl
  · decide

/-- C7 (confirmed): tag parsing fails exactly when some clause has an
empty name component, a `name` clause has an empty value, a `required`
clause has a value other than empty/`true`/`false`, or a clause name
repeats within the tag; and a parse failure makes `Validate` fail
fatally with the parse panic for every input mapping — the input is
never consulted, so the failure can never surface at constraint
evaluation time instead. -/
theorem c7_parse_failure_characterization :
    (∀ l : List String,
      isErr (decodeTagFields l) = true ↔
        ((∃ v ∈ l, BadClause v) ∨ ¬ (l.map clauseName).Nodup)) ∧
    (∀ (f : StructField) (rest : List StructField) (t m : String),
      f.tag = some t →
      decodeTagFields (goSplitComma t) = .error m →
      ∀ inputData, Validate inputData (f :: rest) = .fatal m) := by
  constructor
  · intro l
    rw [decodeTagFields, decodeTagFieldsAux_isErr]
    simp
  · intro f rest t m htag hdec inputData
    have hne := goSplitComma_ne_nil t
    simp [Validate, validateFields, processField, htag, hdec, hne]

/-- C7 witness: the duplicated clause name `name` fails the parse and
panics the validation call on arbitrary (empty) input. -/
theorem c7_witness :
    isErr (decodeTagFields ["name=x", "name=y"]) = true ∧
    Validate [] [⟨"F", some "name=x,name=y", .kInt, .vInt 0⟩] =
      .fatal ("Tag field " ++ "name" ++ " aleady defined") := by
  constructor
  · exact (c7_parse_failure_characterization.1 ["name=x", "name=y"]).mpr
      (Or.inr (by decide))
  · exact c7_parse_failure_characterization.2
      ⟨"F", some "name=x,name=y", .kInt, .vInt 0⟩ [] "name=x,name=y"
      ("Tag field " ++ "name" ++ " aleady defined") rfl rfl []

/-- C8 counterexample: the tag `min=3`, which contains no `name`
clause at all, is accepted by the parser and yields a
`FieldValidationParams` whose name is the empty string — refuting the
claim that every accepted spec has a non-empty name. -/
theorem c8_counterexample :
    decodeTagFields ["min=3"] =
      .ok (⟨"", false, [("min", "3")]⟩ : FieldValidationParams) ∧
    (⟨"", false, [("min", "3")]⟩ : FieldValidationParams).name = "" := ⟨rfl, rfl⟩

/-- C8 (amended): an accepted `FieldValidationParams` has a non-empty
name if and only if the tag contains a `name` clause; a tag without one
is accepted with an empty name rather than rejected. -/
theorem c8_accepted_name_iff_name_clause (l : List String)
    (out : FieldValidationParams)
    (h : decodeTagFields l = .ok out) :
    out.name ≠ "" ↔ ∃ v ∈ l, clauseName v = TAG_FIELD_NAME := by
  have hiff := decodeTagFieldsAux_ok_name l [] ⟨"", false, []⟩ out h
  constructor
  · intro hne
    by_contra hno
    exact hne (hiff.mpr ⟨rfl, hno⟩)
  · rintro ⟨v, hv, hn⟩ he
    exact (hiff.mp he).2 ⟨v, hv, hn⟩

/-- C8 witness: the amended theorem applied to the accepted tag
`name=x`. -/
theorem c8_witness :
    (⟨"x", false, []⟩ : FieldValidationParams).name ≠ "" ↔
      ∃ v ∈ ["name=x"], clauseName v = TAG_FIELD_NAME :=
  c8_accepted_name_iff_name_clause ["name=x"] ⟨"x", false, []⟩ rfl

/-- C9 counterexample: `int16` is a signed integer type, yet a `min`
constraint on an `int16` field reaches the fatal cannot-be-applied
branch (the source's kind switch lists Int, Int8, Int32, Int64 but not
Int16), refuting the claim that the branch is reached only for
non-numeric fields. -/
theorem c9_counterexample :
    Validate [("x", .jNum 5)] [⟨"X", some "name=x,min=0", .kInt16, .vInt 5⟩] =
      .fatal ("Tag " ++ "min" ++ " cannot be applied to field " ++ "X" ++
        ". The field is not an integer or float") := by decide

/-- C9 (amended): evaluating `min`/`max` dispatches to a bound parse
in the field's numeric family followed by the comparison for exactly
the kinds Int, Int8, Int32, Int64, Uint, Uint8, Uint32, Uint64,
Float32 and Float64; every other kind — the non-numeric ones but also
int16 and uint16 — reaches the fatal cannot-be-applied branch. -/
theorem c9_minmax_numeric_dispatch (sfname pname : String) (kind : FieldKind)
    (v : GoValue) (tn tv : String)
    (htn : tn = TAG_FIELD_MIN ∨ tn = TAG_FIELD_MAX) :
    (numericKind kind = false →
      evalConstraint sfname pname kind v tn tv =
        .error ("Tag " ++ tn ++ " cannot be applied to field " ++ sfname ++
          ". The field is not an integer or float")) ∧
    (numericKind kind = true → boundParses kind tv = true →
      evalConstraint sfname pname kind v tn tv = .ok none) := by
  constructor
  · intro hnum
    cases kind <;> simp_all [evalConstraint, numericKind, htn]
  · intro hnum hbp
    cases kind <;>
      simp_all [evalConstraint, numericKind, boundParses, Option.isSome_iff_exists]
    all_goals
      (obtain ⟨b, hb⟩ := hbp; simp [evalConstraint, htn, hb])

/-- C4 witness: Scenario D, `maxLen=10` against an 18-byte string
yields `TooLong` via the amended theorem. -/
theorem c4_witness :
    goParseUint "10" = some 10 ∧ (10 : Nat) < 2 ^ 63 ∧
    evalConstraint "Bio" "bio" .kString (.vStr "a very long string")
        TAG_FIELD_MAX_LEN "10" = .ok (some ⟨.TOO_LONG, "bio"⟩) := by
  refine ⟨by decide, by decide, ?_⟩
  have h := (c4_length_bounds "Bio" "bio" "a very long string" "10" 10 (by decide)
    (by decide)).1
  rw [h]
  rfl

/-- C9 witness: the amended theorem applied at `int8` (numeric
dispatch, no panic) and at `string` (fatal branch). -/
theorem c9_witness :
    (numericKind .kInt8 = true ∧ boundParses .kInt8 "0" = true ∧
      evalConstraint "X" "x" .kInt8 (.vInt 5) TAG_FIELD_MIN "0" = .ok none) ∧
    (numericKind .kString = false ∧
      evalConstraint "B" "b" .kString (.vStr "s") TAG_FIELD_MAX "7" =
        .error ("Tag " ++ TAG_FIELD_MAX ++ " cannot be applied to field " ++ "B" ++
          ". The field is not an integer or float")) := by
  refine ⟨⟨rfl, by decide, ?_⟩, ⟨rfl, ?_⟩⟩
  · exact (c9_minmax_numeric_dispatch "X" "x" .kInt8 (.vInt 5) TAG_FIELD_MIN "0"
      (Or.inl rfl)).2 rfl (by decide)
  · exact (c9_minmax_numeric_dispatch "B" "b" .kString (.vStr "s") TAG_FIELD_MAX "7"
      (Or.inr rfl)).1 rfl

end GoValid
